import Mathlib

/-!
# Verification of the Pixel Check analysis core (`pixel_check.py`)

Shallow embedding of the analysis core of `pixel_check.py`:
image normalization (`PixelAnalyzer._normalize_image`), dark-frame
validation (`PixelAnalyzer._validate_dark_frame`), basic statistics
(`PixelAnalyzer._compute_basic_stats`), defective-pixel detection
(`PixelAnalyzer._detect_defective_pixels`), the analysis pipeline
(`PixelAnalyzer.analyze_image`), quality classification
(`ReportGenerator._calculate_iso_class`) and recommendation text
(`ReportGenerator._generate_recommendation`).

Numeric model: a floating-point sample is modelled as `Val := Option ℝ`,
where `none` stands for a non-finite value (NaN; the pipeline applies
`log10` and division only under guards that keep ±Inf out of reach for
the non-negative sensor data this program consumes, so collapsing all
non-finite values to `none` is faithful there).  IEEE comparison
semantics are kept: any comparison involving a non-finite value is
false.  `numpy` reductions (`mean`, `std`, `median`, `percentile`,
`min`, `max`) return NaN as soon as their input contains a NaN, which
the guards below reproduce.  Exact real arithmetic abstracts from
float32/float64 rounding; none of the verified properties depends on
rounding at the thresholds involved.
-/

open Classical

noncomputable section

/-- A floating-point sample: `none` models a non-finite value (NaN). -/
abbrev Val : Type := Option ℝ

/-- Addition with NaN propagation. -/
def vadd : Val → Val → Val
  | some x, some y => some (x + y)
  | _, _ => none

/-- Subtraction with NaN propagation. -/
def vsub : Val → Val → Val
  | some x, some y => some (x - y)
  | _, _ => none

/-- Multiplication with NaN propagation. -/
def vmul : Val → Val → Val
  | some x, some y => some (x * y)
  | _, _ => none

/-- Division with NaN propagation; division by zero yields a non-finite
value. -/
def vdiv : Val → Val → Val
  | some x, some y => if y = 0 then none else some (x / y)
  | _, _ => none

/-- Absolute value with NaN propagation (`np.abs`). -/
def vabs : Val → Val
  | some x => some |x|
  | none => none

/-- Square root (`np.sqrt`): NaN on negative input, NaN propagation. -/
def vsqrt : Val → Val
  | some x => if x < 0 then none else some (Real.sqrt x)
  | none => none

/-- Base-10 logarithm (`np.log10`): non-finite on non-positive input,
NaN propagation. -/
def vlog10 : Val → Val
  | some x => if x ≤ 0 then none else some (Real.logb 10 x)
  | none => none

/-- Strict `<` with IEEE semantics: false whenever a side is non-finite. -/
def vlt : Val → Val → Prop
  | some x, some y => x < y
  | _, _ => False

/-- Non-strict `≤` with IEEE semantics: false whenever a side is
non-finite. -/
def vle : Val → Val → Prop
  | some x, some y => x ≤ y
  | _, _ => False


/-- Flattening a 2-D grid (`ndarray.flatten`). -/
def gridFlat (g : List (List Val)) : List Val := g.foldr (· ++ ·) []


/-- The finite (non-NaN) entries of a sample list, in order. -/
def realsOf (l : List Val) : List ℝ := l.reduceOption

/-- `np.sort` on NaN-free data: the finite entries in ascending order. -/
def sortedReals (l : List Val) : List ℝ :=
  (realsOf l).insertionSort (· ≤ ·)

/-- `np.max` as a reduction; returns `none` on an empty list. -/
def rmax : List ℝ → Option ℝ
  | [] => none
  | x :: xs =>
    match rmax xs with
    | none => some x
    | some m => some (Max.max x m)

/-- `np.min` as a reduction; returns `none` on an empty list. -/
def rmin : List ℝ → Option ℝ
  | [] => none
  | x :: xs =>
    match rmin xs with
    | none => some x
    | some m => some (Min.min x m)

/-- `np.max` over samples: NaN-propagating. -/
def vmaxL (l : List Val) : Val := if none ∈ l then none else rmax (realsOf l)

/-- `np.min` over samples: NaN-propagating. -/
def vminL (l : List Val) : Val := if none ∈ l then none else rmin (realsOf l)

/-- `np.mean`: the arithmetic mean; NaN when the input is empty or
contains a NaN. -/
def vmean (l : List Val) : Val :=
  if l = [] ∨ none ∈ l then none else some ((realsOf l).sum / l.length)

/-- `np.std` (population): square root of the mean squared deviation
from the mean; NaN-propagating. -/
def vstd (l : List Val) : Val :=
  vsqrt (vmean (l.map fun x => vmul (vsub x (vmean l)) (vsub x (vmean l))))

/-- `np.median`: middle of the sorted data (mean of the two middle
entries for even length); NaN when the input is empty or contains a
NaN. -/
def vmedian (l : List Val) : Val :=
  if l = [] ∨ none ∈ l then none
  else
    some (if (sortedReals l).length % 2 = 1 then
        (sortedReals l).getD ((sortedReals l).length / 2) 0
      else
        ((sortedReals l).getD ((sortedReals l).length / 2 - 1) 0 +
          (sortedReals l).getD ((sortedReals l).length / 2) 0) / 2)

/-- The virtual index of percentile `q` in `n` sorted samples. -/
def percPos (q : ℚ) (n : ℕ) : ℚ := ((n - 1 : ℕ) : ℚ) * q / 100

/-- Linear interpolation at percentile `q` in a sorted list. -/
def percInterp (q : ℚ) (s : List ℝ) : ℝ :=
  ((s.getD ⌊percPos q s.length⌋₊ 0) +
    (((percPos q s.length : ℚ) : ℝ) - (⌊percPos q s.length⌋₊ : ℝ)) *
      (s.getD ⌈percPos q s.length⌉₊ 0 - s.getD ⌊percPos q s.length⌋₊ 0))

/-- `np.percentile` with the default linear interpolation: the virtual
index is `(n-1)*q/100` and the value interpolates between the two
neighbouring sorted entries; NaN when the input is empty or contains a
NaN. -/
def vpercentile (q : ℚ) (l : List Val) : Val :=
  if l = [] ∨ none ∈ l then none
  else
    some (percInterp q (sortedReals l))

/-- The `PixelStats` dataclass. -/
structure PixelStats where
  total_pixels : ℕ
  hot_pixels : ℕ
  dead_pixels : ℕ
  hot_percentage : Val
  dead_percentage : Val
  mean : Val
  std : Val
  median : Val
  min : Val
  max : Val
  q1 : Val
  q3 : Val
  iqr : Val
  mad : Val
  snr_db : Val

/-- The analysis-relevant fields of the `AnalysisConfig` dataclass
(output formats, heatmaps and intermediate saving are peripheral I/O
options). -/
structure AnalysisConfig where
  hot_pixel_sigma : ℝ
  dead_pixel_sigma : ℝ
  hot_pixel_iqr_mult : ℝ
  dead_pixel_iqr_mult : ℝ
  hot_pixel_mad_mult : ℝ
  dead_pixel_mad_mult : ℝ
  min_snr_db : ℝ
  max_dark_mean : ℝ
  require_dark_frame : Bool

/-- The default configuration of `AnalysisConfig`. -/
def defaultConfig : AnalysisConfig where
  hot_pixel_sigma := 6
  dead_pixel_sigma := 6
  hot_pixel_iqr_mult := 3.5
  dead_pixel_iqr_mult := 3.5
  hot_pixel_mad_mult := 4
  dead_pixel_mad_mult := 4
  min_snr_db := 10
  max_dark_mean := 0.1
  require_dark_frame := true

/-- `PixelAnalyzer._compute_basic_stats`: statistics of the flattened
normalized image; defect counts and percentages start at zero and
`snr_db` at `0.0`. -/
def compute_basic_stats (flat : List Val) : PixelStats where
  total_pixels := flat.length
  hot_pixels := 0
  dead_pixels := 0
  hot_percentage := some 0
  dead_percentage := some 0
  mean := vmean flat
  std := vstd flat
  median := vmedian flat
  min := vminL flat
  max := vmaxL flat
  q1 := vpercentile 25 flat
  q3 := vpercentile 75 flat
  iqr := vsub (vpercentile 75 flat) (vpercentile 25 flat)
  mad := vmedian (flat.map fun x => vabs (vsub x (vmedian flat)))
  snr_db := some 0

/-- Sigma-method hot test: `image_norm > mean + hot_pixel_sigma * std`. -/
def hotSigma (cfg : AnalysisConfig) (stats : PixelStats) (v : Val) : Prop :=
  vlt (vadd stats.mean (vmul (some cfg.hot_pixel_sigma) stats.std)) v

/-- Sigma-method dead test: `image_norm < mean - dead_pixel_sigma * std`. -/
def deadSigma (cfg : AnalysisConfig) (stats : PixelStats) (v : Val) : Prop :=
  vlt v (vsub stats.mean (vmul (some cfg.dead_pixel_sigma) stats.std))

/-- IQR-method hot test: `image_norm > q3 + hot_pixel_iqr_mult * iqr`. -/
def hotIqr (cfg : AnalysisConfig) (stats : PixelStats) (v : Val) : Prop :=
  vlt (vadd stats.q3 (vmul (some cfg.hot_pixel_iqr_mult) stats.iqr)) v

/-- IQR-method dead test: `image_norm < q1 - dead_pixel_iqr_mult * iqr`. -/
def deadIqr (cfg : AnalysisConfig) (stats : PixelStats) (v : Val) : Prop :=
  vlt v (vsub stats.q1 (vmul (some cfg.dead_pixel_iqr_mult) stats.iqr))

/-- MAD-method hot test: `image_norm > median + hot_pixel_mad_mult * mad`. -/
def hotMad (cfg : AnalysisConfig) (stats : PixelStats) (v : Val) : Prop :=
  vlt (vadd stats.median (vmul (some cfg.hot_pixel_mad_mult) stats.mad)) v

/-- MAD-method dead test: `image_norm < median - dead_pixel_mad_mult * mad`. -/
def deadMad (cfg : AnalysisConfig) (stats : PixelStats) (v : Val) : Prop :=
  vlt v (vsub stats.median (vmul (some cfg.dead_pixel_mad_mult) stats.mad))

/-- The 2-of-3 consensus: the sum of the three boolean indicators,
`astype(int)`, is at least 2. -/
def twoOfThree (A B C : Prop) : Prop := (A ∧ B) ∨ (A ∧ C) ∨ (B ∧ C)

/-- Consensus hot flag for one pixel value. -/
def hotFlag (cfg : AnalysisConfig) (stats : PixelStats) (v : Val) : Prop :=
  twoOfThree (hotSigma cfg stats v) (hotIqr cfg stats v) (hotMad cfg stats v)

/-- Consensus dead flag for one pixel value. -/
def deadFlag (cfg : AnalysisConfig) (stats : PixelStats) (v : Val) : Prop :=
  twoOfThree (deadSigma cfg stats v) (deadIqr cfg stats v) (deadMad cfg stats v)

/-- `PixelAnalyzer._detect_defective_pixels`: elementwise threshold
tests for the three methods, then 2-of-3 consensus; returns the hot and
the dead mask. -/
def detect_defective_pixels (img : List (List Val)) (stats : PixelStats)
    (cfg : AnalysisConfig) : List (List Prop) × List (List Prop) :=
  (img.map (List.map (hotFlag cfg stats)), img.map (List.map (deadFlag cfg stats)))

/-- Mask lookup; `False` off the grid. -/
def maskAt (m : List (List Prop)) (i j : ℕ) : Prop := (m.getD i []).getD j False

/-- Number of `True` cells of a mask (`np.sum` over a boolean grid). -/
def countTrue (m : List (List Prop)) : ℕ :=
  (m.map fun r => r.countP fun p => decide p).sum

/-- The two advisory issues `_validate_dark_frame` can log. -/
inductive DarkIssue where
  | highMean : DarkIssue
  | lowSnr : DarkIssue
deriving DecidableEq

/-- The observable outcome of `_validate_dark_frame`: the measured
quantities and the logged issues (the method only logs; it returns
nothing and never raises). -/
structure DarkFrameReport where
  mean : Val
  std : Val
  snr_db : Val
  issues : List DarkIssue

/-- `PixelAnalyzer._validate_dark_frame`: measures mean, std and
`snr_db = 20*log10(mean/std)` when `std > 0 and mean > 0` (else the
sentinel `-100`), and logs an issue for `mean > max_dark_mean` and one
for `snr_db < min_snr_db`. -/
def validate_dark_frame (cfg : AnalysisConfig) (imageNorm : List (List Val)) :
    DarkFrameReport :=
  let flat := gridFlat imageNorm
  let m := vmean flat
  let s := vstd flat
  let snr : Val :=
    if vlt (some 0) s ∧ vlt (some 0) m then vmul (some 20) (vlog10 (vdiv m s))
    else some (-100)
  { mean := m
    std := s
    snr_db := snr
    issues :=
      (if vlt (some cfg.max_dark_mean) m then [DarkIssue.highMean] else []) ++
        (if vlt snr (some cfg.min_snr_db) then [DarkIssue.lowSnr] else []) }

/-- The one fatal error of the core: a reduction over an empty array
(`np.max` raises on a zero-size input). -/
inductive AnalysisError where
  | emptyImage : AnalysisError
deriving DecidableEq

/-- The bit-depth inference chain of `_normalize_image`. -/
def inferBitDepth (maxVal : Val) : ℕ :=
  if vle maxVal (some 255) then 8
  else if vle maxVal (some 4095) then 12
  else if vle maxVal (some 16383) then 14
  else 16

/-- `PixelAnalyzer._normalize_image`: detect the bit depth from the
maximum sample and divide by `2^bit_depth - 1` (the `float32` cast is
abstracted to exact division).  `np.max` raises on an empty input. -/
def normalize_image (image : List (List Val)) :
    Except AnalysisError (List (List Val) × ℕ) :=
  if gridFlat image = [] then Except.error AnalysisError.emptyImage
  else
    let d := inferBitDepth (vmaxL (gridFlat image))
    Except.ok (image.map (List.map fun v => vdiv v (some ((2 : ℝ) ^ d - 1))), d)

/-- What `analyze_image` produces: the returned triple
`(stats, hot_mask, dead_mask)` plus the logged dark-frame report
(`none` when the check was skipped). -/
structure AnalyzeOutput where
  stats : PixelStats
  hotMask : List (List Prop)
  deadMask : List (List Prop)
  darkLog : Option DarkFrameReport

/-- `PixelAnalyzer.analyze_image`: normalize, optionally validate the
dark frame (log only), compute statistics on the flattened image,
detect defects, fill in counts, percentages and SNR. -/
def analyze_image (cfg : AnalysisConfig) (image : List (List Val)) :
    Except AnalysisError AnalyzeOutput :=
  match normalize_image image with
  | Except.error e => Except.error e
  | Except.ok (imageNorm, _) =>
    let darkLog := if cfg.require_dark_frame then some (validate_dark_frame cfg imageNorm)
      else none
    let flat := gridFlat imageNorm
    let stats0 := compute_basic_stats flat
    let masks := detect_defective_pixels imageNorm stats0 cfg
    let hot := countTrue masks.1
    let dead := countTrue masks.2
    let total := flat.length
    Except.ok
      { stats :=
          { stats0 with
            hot_pixels := hot
            dead_pixels := dead
            total_pixels := total
            hot_percentage := some ((hot : ℝ) / (total : ℝ) * 100)
            dead_percentage := some ((dead : ℝ) / (total : ℝ) * 100)
            snr_db :=
              if vlt (some 0) stats0.std then
                vmul (some 20) (vlog10 (vdiv stats0.mean stats0.std))
              else some (-100) }
        hotMask := masks.1
        deadMask := masks.2
        darkLog := darkLog }

/-- The five quality grades of `_calculate_iso_class`, best first. -/
inductive Grade where
  | Aplus : Grade
  | A : Grade
  | B : Grade
  | C : Grade
  | D : Grade
deriving DecidableEq

/-- Rank of a grade: larger is better. -/
def gradeValue : Grade → ℕ
  | Grade.Aplus => 4
  | Grade.A => 3
  | Grade.B => 2
  | Grade.C => 1
  | Grade.D => 0

/-- The report string of each grade, as in the source. -/
def gradeLabel : Grade → String
  | Grade.Aplus => ("A+ (Excelente - Nivel Profesional)")
  | Grade.A => ("A (Muy Bueno - Avanzado)")
  | Grade.B => ("B (Bueno - Entusiasta)")
  | Grade.C => ("C (Aceptable - Consumidor)")
  | Grade.D => ("D (Deficiente - Requiere Atención)")

/-- First tier condition of `_calculate_iso_class`. -/
def tierAplus (s : PixelStats) : Prop :=
  vlt s.hot_percentage (some 0.001) ∧ vlt s.dead_percentage (some 0.0005) ∧
    vlt (some 30) s.snr_db

/-- Second tier condition of `_calculate_iso_class`. -/
def tierA (s : PixelStats) : Prop :=
  vlt s.hot_percentage (some 0.005) ∧ vlt s.dead_percentage (some 0.002) ∧
    vlt (some 25) s.snr_db

/-- Third tier condition of `_calculate_iso_class`. -/
def tierB (s : PixelStats) : Prop :=
  vlt s.hot_percentage (some 0.01) ∧ vlt s.dead_percentage (some 0.005) ∧
    vlt (some 20) s.snr_db

/-- Fourth tier condition of `_calculate_iso_class`. -/
def tierC (s : PixelStats) : Prop :=
  vlt s.hot_percentage (some 0.02) ∧ vlt s.dead_percentage (some 0.01) ∧
    vlt (some 15) s.snr_db

/-- The tier table of `_calculate_iso_class`, evaluated top-down. -/
def calcGrade (stats : PixelStats) : Grade :=
  if tierAplus stats then Grade.Aplus
  else if tierA stats then Grade.A
  else if tierB stats then Grade.B
  else if tierC stats then Grade.C
  else Grade.D

/-- `ReportGenerator._calculate_iso_class`. -/
def calculate_iso_class (stats : PixelStats) : String :=
  gradeLabel (calcGrade stats)

/-- `ReportGenerator._generate_recommendation`: a chain of tests on
`snr_db` and `hot_percentage` only. -/
def generate_recommendation (stats : PixelStats) : String :=
  if vlt stats.snr_db (some 10) then
    ("¡NO ES UN DARK FRAME VÁLIDO! Verifique la captura.")
  else if vlt (some 0.1) stats.hot_percentage then
    ("Sensor con defectos severos. Revisión profesional recomendada.")
  else if vlt (some 0.02) stats.hot_percentage then
    ("Sensor necesita calibración. Considere mapeo de píxeles defectuosos.")
  else if vlt (some 25) stats.snr_db then
    ("Sensor en excelente estado. Adecuado para trabajo profesional.")
  else
    ("Sensor en buen estado para uso general.")

/-- The triple `(stats, hot_mask, dead_mask)` that `analyze_image`
returns to its caller. -/
def returnedTriple (cfg : AnalysisConfig) (image : List (List Val)) :
    Except AnalysisError (PixelStats × List (List Prop) × List (List Prop)) :=
  (analyze_image cfg image).map fun o => (o.stats, o.hotMask, o.deadMask)

/-- The dark-frame report an analysis run logs; `none` when the run
failed or the check was skipped. -/
def darkLogOf (cfg : AnalysisConfig) (image : List (List Val)) :
    Option DarkFrameReport :=
  match analyze_image cfg image with
  | Except.ok o => o.darkLog
  | Except.error _ => none

/-- Whether an analysis run succeeded. -/
def analysisOk : Except AnalysisError AnalyzeOutput → Bool
  | Except.ok _ => true
  | Except.error _ => false

/-- A stats record carrying the three classifier inputs (the remaining
fields are irrelevant to classification and recommendation). -/
def mkGradeInput (h d s : ℝ) : PixelStats where
  total_pixels := 0
  hot_pixels := 0
  dead_pixels := 0
  hot_percentage := some h
  dead_percentage := some d
  mean := some 0
  std := some 0
  median := some 0
  min := some 0
  max := some 0
  q1 := some 0
  q3 := some 0
  iqr := some 0
  mad := some 0
  snr_db := some s

/-- The dark-frame verdict in the words of the spec (§4.2), stated for
comparison with the verdict the code computes: valid iff `mean < 0.1`,
`snr_db > 10` and `std < 0.05`. -/
def specValidDark (r : DarkFrameReport) : Prop :=
  vlt r.mean (some 0.1) ∧ vlt (some 10) r.snr_db ∧ vlt r.std (some 0.05)

-- Basic facts about the `Val` arithmetic, followed by the verified
-- properties of the analysis core.

@[simp] theorem vadd_some_some (x y : ℝ) : vadd (some x) (some y) = some (x + y) := rfl

@[simp] theorem vsub_some_some (x y : ℝ) : vsub (some x) (some y) = some (x - y) := rfl

@[simp] theorem vmul_some_some (x y : ℝ) : vmul (some x) (some y) = some (x * y) := rfl

@[simp] theorem vabs_some (x : ℝ) : vabs (some x) = some |x| := rfl

@[simp] theorem vadd_none_left (v : Val) : vadd none v = none := rfl

@[simp] theorem vadd_none_right (v : Val) : vadd v none = none := by cases v <;> rfl

@[simp] theorem vsub_none_left (v : Val) : vsub none v = none := rfl

@[simp] theorem vsub_none_right (v : Val) : vsub v none = none := by cases v <;> rfl

@[simp] theorem vmul_none_left (v : Val) : vmul none v = none := rfl

@[simp] theorem vmul_none_right (v : Val) : vmul v none = none := by cases v <;> rfl

@[simp] theorem vdiv_none_left (v : Val) : vdiv none v = none := rfl

@[simp] theorem vdiv_none_right (v : Val) : vdiv v none = none := by cases v <;> rfl

@[simp] theorem vlt_some_some (x y : ℝ) : vlt (some x) (some y) ↔ x < y := Iff.rfl

@[simp] theorem vlt_none_left (v : Val) : ¬ vlt none v := by cases v <;> exact not_false

@[simp] theorem vlt_none_right (v : Val) : ¬ vlt v none := by cases v <;> exact not_false

@[simp] theorem vle_some_some (x y : ℝ) : vle (some x) (some y) ↔ x ≤ y := Iff.rfl

@[simp] theorem vle_none_left (v : Val) : ¬ vle none v := by cases v <;> exact not_false

@[simp] theorem vle_none_right (v : Val) : ¬ vle v none := by cases v <;> exact not_false

theorem vdiv_some_some_of_ne (x y : ℝ) (h : y ≠ 0) :
    vdiv (some x) (some y) = some (x / y) := by
  simp [vdiv, h]

theorem vsqrt_some_of_nonneg (x : ℝ) (h : 0 ≤ x) :
    vsqrt (some x) = some (Real.sqrt x) := by
  simp [vsqrt, not_lt.mpr h]

theorem vlog10_some_of_pos (x : ℝ) (h : 0 < x) :
    vlog10 (some x) = some (Real.logb 10 x) := by
  simp [vlog10, not_le.mpr h]

/-- `vlt a b` forces both sides to be finite. -/
theorem vlt_finite {a b : Val} (h : vlt a b) :
    ∃ x y, a = some x ∧ b = some y ∧ x < y := by
  cases a with
  | none => exact absurd h (vlt_none_left _)
  | some x =>
    cases b with
    | none => exact absurd h (vlt_none_right _)
    | some y => exact ⟨x, y, rfl, rfl, h⟩

/-- `vadd` finite forces both operands finite. -/
theorem vadd_eq_some {a b : Val} {t : ℝ} (h : vadd a b = some t) :
    ∃ x y, a = some x ∧ b = some y ∧ t = x + y := by
  cases a with
  | none => simp [vadd] at h
  | some x =>
    cases b with
    | none => simp [vadd] at h
    | some y => exact ⟨x, y, rfl, rfl, by simpa [vadd] using h.symm⟩

/-- `vsub` finite forces both operands finite. -/
theorem vsub_eq_some {a b : Val} {t : ℝ} (h : vsub a b = some t) :
    ∃ x y, a = some x ∧ b = some y ∧ t = x - y := by
  cases a with
  | none => simp [vsub] at h
  | some x =>
    cases b with
    | none => simp [vsub] at h
    | some y => exact ⟨x, y, rfl, rfl, by simpa [vsub] using h.symm⟩

/-- `vmul` finite forces both operands finite. -/
theorem vmul_eq_some {a b : Val} {t : ℝ} (h : vmul a b = some t) :
    ∃ x y, a = some x ∧ b = some y ∧ t = x * y := by
  cases a with
  | none => simp [vmul] at h
  | some x =>
    cases b with
    | none => simp [vmul] at h
    | some y => exact ⟨x, y, rfl, rfl, by simpa [vmul] using h.symm⟩

/-- A finite `vsqrt` value is non-negative. -/
theorem vsqrt_eq_some_nonneg {a : Val} {s : ℝ} (h : vsqrt a = some s) : 0 ≤ s := by
  cases a with
  | none => simp [vsqrt] at h
  | some x =>
    by_cases hx : x < 0
    · simp [vsqrt, hx] at h
    · simp only [vsqrt, if_neg hx, Option.some.injEq] at h
      exact h ▸ Real.sqrt_nonneg x

@[simp] theorem gridFlat_nil : gridFlat [] = [] := rfl

@[simp] theorem gridFlat_cons (r : List Val) (g : List (List Val)) :
    gridFlat (r :: g) = r ++ gridFlat g := rfl

/-- **C10.** The statistics, hot mask and dead mask returned by
`analyze_image` are identical whether `require_dark_frame` is true or
false: the dark-frame validation step has no effect on any returned
value. -/
theorem analyze_image_ignores_dark_flag (cfg : AnalysisConfig)
    (image : List (List Val)) (b₁ b₂ : Bool) :
    returnedTriple { cfg with require_dark_frame := b₁ } image =
      returnedTriple { cfg with require_dark_frame := b₂ } image := by
  cases cfg
  unfold returnedTriple analyze_image
  rcases hn : normalize_image image with e | p
  · rfl
  · rfl

/-- **C5 (amended).** When `require_dark_frame` is disabled the
dark-frame check does not run at all: no dark-frame outcome is computed
or reported.  (The analysis itself is never blocked either way, see
`analyze_image_ignores_dark_flag`.) -/
theorem dark_check_skipped (cfg : AnalysisConfig) (image : List (List Val))
    (h : cfg.require_dark_frame = false) : darkLogOf cfg image = none := by
  unfold darkLogOf analyze_image
  rcases hn : normalize_image image with e | p
  · rfl
  · simp [h]

/-- Witness for `dark_check_skipped` at a concrete configuration and
image. -/
theorem dark_check_skipped_witness :
    ({ defaultConfig with require_dark_frame := false } : AnalysisConfig).require_dark_frame
        = false ∧
      darkLogOf { defaultConfig with require_dark_frame := false } [[some 0]] = none :=
  ⟨rfl, dark_check_skipped _ _ rfl⟩

/-- **C5 (counterexample).** The claim says the check still runs and its
outcome is reported when `require_dark_frame` is disabled; on this
concrete run the analysis succeeds but no dark-frame outcome exists. -/
theorem dark_check_runs_counterexample :
    analysisOk (analyze_image { defaultConfig with require_dark_frame := false }
        [[some 0]]) = true ∧
      darkLogOf { defaultConfig with require_dark_frame := false } [[some 0]] = none := by
  constructor
  · simp [analysisOk, analyze_image, normalize_image]
  · simp [darkLogOf, analyze_image, normalize_image]

/-- **C8 (amended).** An empty grid (no rows, or only zero-length rows)
fails fast with an error and no partial result — the `np.max` reduction
raises; every non-empty grid, including one containing only non-finite
values, produces a full result. -/
theorem analysis_error_conditions (cfg : AnalysisConfig) (image : List (List Val)) :
    (gridFlat image = [] → analyze_image cfg image = Except.error AnalysisError.emptyImage) ∧
      (gridFlat image ≠ [] → analysisOk (analyze_image cfg image) = true) := by
  constructor
  · intro h
    unfold analyze_image normalize_image
    simp [h]
  · intro h
    unfold analyze_image normalize_image
    simp [h, analysisOk]

/-- Witness for `analysis_error_conditions`: the empty grid errors out. -/
theorem analysis_error_conditions_witness :
    gridFlat ([] : List (List Val)) = [] ∧
      analyze_image defaultConfig [] = Except.error AnalysisError.emptyImage :=
  ⟨rfl, (analysis_error_conditions defaultConfig []).1 rfl⟩

/-- **C8 (counterexample).** A 1×1 grid whose only sample is non-finite
is not rejected: the analysis completes and returns a result, against
the claim that it fails fast. -/
theorem nonfinite_input_not_rejected :
    analysisOk (analyze_image defaultConfig [[none]]) = true := by
  simp [analysisOk, analyze_image, normalize_image]

/-- **C4 (amended).** The recommendation ignores the quality grade; it
is a chain on `snr_db` and `hot_percentage` alone: `snr_db < 10` gives
the invalid-dark-frame message, else `hot_percentage > 0.1` the severe
defect message, else `hot_percentage > 0.02` the calibration message,
else `snr_db > 25` the excellent-state message, else the general-use
message. -/
theorem recommendation_branches (s : PixelStats) :
    (vlt s.snr_db (some 10) →
      generate_recommendation s = ("¡NO ES UN DARK FRAME VÁLIDO! Verifique la captura.")) ∧
    (¬ vlt s.snr_db (some 10) → vlt (some 0.1) s.hot_percentage →
      generate_recommendation s =
        ("Sensor con defectos severos. Revisión profesional recomendada.")) ∧
    (¬ vlt s.snr_db (some 10) → ¬ vlt (some 0.1) s.hot_percentage →
      vlt (some 0.02) s.hot_percentage →
      generate_recommendation s =
        ("Sensor necesita calibración. Considere mapeo de píxeles defectuosos.")) ∧
    (¬ vlt s.snr_db (some 10) → ¬ vlt (some 0.1) s.hot_percentage →
      ¬ vlt (some 0.02) s.hot_percentage → vlt (some 25) s.snr_db →
      generate_recommendation s =
        ("Sensor en excelente estado. Adecuado para trabajo profesional.")) ∧
    (¬ vlt s.snr_db (some 10) → ¬ vlt (some 0.1) s.hot_percentage →
      ¬ vlt (some 0.02) s.hot_percentage → ¬ vlt (some 25) s.snr_db →
      generate_recommendation s = ("Sensor en buen estado para uso general.")) := by
  unfold generate_recommendation
  refine ⟨fun h1 => ?_, fun h1 h2 => ?_, fun h1 h2 h3 => ?_,
    fun h1 h2 h3 h4 => ?_, fun h1 h2 h3 h4 => ?_⟩
  · rw [if_pos h1]
  · rw [if_neg h1, if_pos h2]
  · rw [if_neg h1, if_neg h2, if_pos h3]
  · rw [if_neg h1, if_neg h2, if_neg h3, if_pos h4]
  · rw [if_neg h1, if_neg h2, if_neg h3, if_neg h4]

/-- Witness for `recommendation_branches`: a result with `snr_db = 20`
and `hot_percentage = 0.05` lands in the calibration branch. -/
theorem recommendation_branches_witness :
    ¬ vlt (mkGradeInput 0.05 0 20).snr_db (some 10) ∧
      ¬ vlt (some 0.1) (mkGradeInput 0.05 0 20).hot_percentage ∧
      vlt (some 0.02) (mkGradeInput 0.05 0 20).hot_percentage ∧
      generate_recommendation (mkGradeInput 0.05 0 20) =
        ("Sensor necesita calibración. Considere mapeo de píxeles defectuosos.") := by
  have h1 : ¬ vlt (mkGradeInput 0.05 0 20).snr_db (some 10) := by
    simp [mkGradeInput]; norm_num
  have h2 : ¬ vlt (some 0.1) (mkGradeInput 0.05 0 20).hot_percentage := by
    simp [mkGradeInput]; norm_num
  have h3 : vlt (some 0.02) (mkGradeInput 0.05 0 20).hot_percentage := by
    simp [mkGradeInput]; norm_num
  exact ⟨h1, h2, h3, (recommendation_branches (mkGradeInput 0.05 0 20)).2.2.1 h1 h2 h3⟩

/-- **C4 (counterexample).** A grade-D result (`hot = 0`, `dead = 0.5`,
`snr = 30`) with `snr_db ≥ 10` and `hot_percentage ≤ 0.1` does not get
the "needs calibration" message the claim requires: it gets the
affirmative excellent-state message. -/
theorem recommendation_grade_counterexample :
    calculate_iso_class (mkGradeInput 0 0.5 30) = ("D (Deficiente - Requiere Atención)") ∧
      ¬ vlt (mkGradeInput 0 0.5 30).snr_db (some 10) ∧
      ¬ vlt (some 0.1) (mkGradeInput 0 0.5 30).hot_percentage ∧
      generate_recommendation (mkGradeInput 0 0.5 30) =
        ("Sensor en excelente estado. Adecuado para trabajo profesional.") ∧
      ("Sensor en excelente estado. Adecuado para trabajo profesional.") ≠
        ("Sensor necesita calibración. Considere mapeo de píxeles defectuosos.") := by
  refine ⟨?_, ?_, ?_, ?_, by decide⟩
  · unfold calculate_iso_class calcGrade
    rw [if_neg, if_neg, if_neg, if_neg]
    · rfl
    all_goals norm_num [tierAplus, tierA, tierB, tierC, mkGradeInput, vlt_some_some]
  · norm_num [mkGradeInput, vlt_some_some]
  · norm_num [mkGradeInput, vlt_some_some]
  · unfold generate_recommendation
    rw [if_neg, if_neg, if_neg, if_pos]
    all_goals norm_num [mkGradeInput, vlt_some_some]

/-- **C3.** The quality classification depends only on
`(hot_percentage, dead_percentage, snr_db)` and evaluates the five
tiers in strict top-down order, returning the first tier whose three
conditions all hold (`tierAplus`, `tierA`, `tierB`, `tierC` spell the
rows of the table); `D` is the fallback. -/
theorem iso_class_tiers (s : PixelStats) :
    (calculate_iso_class s = ("A+ (Excelente - Nivel Profesional)") ↔ tierAplus s) ∧
    (calculate_iso_class s = ("A (Muy Bueno - Avanzado)") ↔
      (¬ tierAplus s ∧ tierA s)) ∧
    (calculate_iso_class s = ("B (Bueno - Entusiasta)") ↔
      (¬ tierAplus s ∧ ¬ tierA s ∧ tierB s)) ∧
    (calculate_iso_class s = ("C (Aceptable - Consumidor)") ↔
      (¬ tierAplus s ∧ ¬ tierA s ∧ ¬ tierB s ∧ tierC s)) ∧
    (calculate_iso_class s = ("D (Deficiente - Requiere Atención)") ↔
      (¬ tierAplus s ∧ ¬ tierA s ∧ ¬ tierB s ∧ ¬ tierC s)) := by
  unfold calculate_iso_class calcGrade
  by_cases c1 : tierAplus s
  · rw [if_pos c1]
    exact ⟨iff_of_true rfl c1,
      iff_of_false (by decide) fun hc => hc.1 c1,
      iff_of_false (by decide) fun hc => hc.1 c1,
      iff_of_false (by decide) fun hc => hc.1 c1,
      iff_of_false (by decide) fun hc => hc.1 c1⟩
  · by_cases c2 : tierA s
    · rw [if_neg c1, if_pos c2]
      exact ⟨iff_of_false (by decide) c1,
        iff_of_true rfl ⟨c1, c2⟩,
        iff_of_false (by decide) fun hc => hc.2.1 c2,
        iff_of_false (by decide) fun hc => hc.2.1 c2,
        iff_of_false (by decide) fun hc => hc.2.1 c2⟩
    · by_cases c3 : tierB s
      · rw [if_neg c1, if_neg c2, if_pos c3]
        exact ⟨iff_of_false (by decide) c1,
          iff_of_false (by decide) fun hc => c2 hc.2,
          iff_of_true rfl ⟨c1, c2, c3⟩,
          iff_of_false (by decide) fun hc => hc.2.2.1 c3,
          iff_of_false (by decide) fun hc => hc.2.2.1 c3⟩
      · by_cases c4 : tierC s
        · rw [if_neg c1, if_neg c2, if_neg c3, if_pos c4]
          exact ⟨iff_of_false (by decide) c1,
            iff_of_false (by decide) fun hc => c2 hc.2,
            iff_of_false (by decide) fun hc => c3 hc.2.2,
            iff_of_true rfl ⟨c1, c2, c3, c4⟩,
            iff_of_false (by decide) fun hc => hc.2.2.2 c4⟩
        · rw [if_neg c1, if_neg c2, if_neg c3, if_neg c4]
          exact ⟨iff_of_false (by decide) c1,
            iff_of_false (by decide) fun hc => c2 hc.2,
            iff_of_false (by decide) fun hc => c3 hc.2.2,
            iff_of_false (by decide) fun hc => c4 hc.2.2.2,
            iff_of_true rfl ⟨c1, c2, c3, c4⟩⟩

/-- Witness for `iso_class_tiers` at a concrete stats record. -/
theorem iso_class_tiers_witness :
    calculate_iso_class (mkGradeInput 0 0 40) = ("A+ (Excelente - Nivel Profesional)") ↔
      tierAplus (mkGradeInput 0 0 40) :=
  (iso_class_tiers (mkGradeInput 0 0 40)).1

/-- A tier-A+ result is graded with the top rank. -/
theorem calcGrade_rank_of_tierAplus (s : PixelStats) (h : tierAplus s) :
    gradeValue (calcGrade s) = 4 := by
  unfold calcGrade
  rw [if_pos h]
  rfl

/-- A tier-A result is graded with rank at least 3. -/
theorem calcGrade_rank_of_tierA (s : PixelStats) (h : tierA s) :
    3 ≤ gradeValue (calcGrade s) := by
  unfold calcGrade
  by_cases c1 : tierAplus s
  · rw [if_pos c1]; norm_num [gradeValue]
  · rw [if_neg c1, if_pos h]
    norm_num [gradeValue]

/-- A tier-B result is graded with rank at least 2. -/
theorem calcGrade_rank_of_tierB (s : PixelStats) (h : tierB s) :
    2 ≤ gradeValue (calcGrade s) := by
  unfold calcGrade
  by_cases c1 : tierAplus s
  · rw [if_pos c1]; norm_num [gradeValue]
  · by_cases c2 : tierA s
    · rw [if_neg c1, if_pos c2]; norm_num [gradeValue]
    · rw [if_neg c1, if_neg c2, if_pos h]
      norm_num [gradeValue]

/-- A tier-C result is graded with rank at least 1. -/
theorem calcGrade_rank_of_tierC (s : PixelStats) (h : tierC s) :
    1 ≤ gradeValue (calcGrade s) := by
  unfold calcGrade
  by_cases c1 : tierAplus s
  · rw [if_pos c1]; norm_num [gradeValue]
  · by_cases c2 : tierA s
    · rw [if_neg c1, if_pos c2]; norm_num [gradeValue]
    · by_cases c3 : tierB s
      · rw [if_neg c1, if_neg c2, if_pos c3]; norm_num [gradeValue]
      · rw [if_neg c1, if_neg c2, if_neg c3, if_pos h]
        norm_num [gradeValue]

/-- Failing tier A+ bounds the rank by 3. -/
theorem calcGrade_rank_ub_A (s : PixelStats) (h : ¬ tierAplus s) :
    gradeValue (calcGrade s) ≤ 3 := by
  unfold calcGrade
  rw [if_neg h]
  split_ifs <;> norm_num [gradeValue]

/-- Failing tiers A+ and A bounds the rank by 2. -/
theorem calcGrade_rank_ub_B (s : PixelStats) (h1 : ¬ tierAplus s) (h2 : ¬ tierA s) :
    gradeValue (calcGrade s) ≤ 2 := by
  unfold calcGrade
  rw [if_neg h1, if_neg h2]
  split_ifs <;> norm_num [gradeValue]

/-- Failing tiers A+, A and B bounds the rank by 1. -/
theorem calcGrade_rank_ub_C (s : PixelStats) (h1 : ¬ tierAplus s) (h2 : ¬ tierA s)
    (h3 : ¬ tierB s) : gradeValue (calcGrade s) ≤ 1 := by
  unfold calcGrade
  rw [if_neg h1, if_neg h2, if_neg h3]
  split_ifs <;> norm_num [gradeValue]

/-- **C7.** Grade monotonicity: lowering the hot and dead percentages
and raising the SNR never lowers the grade in the order
`A+ > A > B > C > D` (rank 4 … 0). -/
theorem grade_monotone (h d s h₁ d₁ s₁ : ℝ) (hh : h₁ ≤ h) (hd : d₁ ≤ d) (hs : s ≤ s₁) :
    gradeValue (calcGrade (mkGradeInput h d s)) ≤
      gradeValue (calcGrade (mkGradeInput h₁ d₁ s₁)) := by
  have tr1 : tierAplus (mkGradeInput h d s) → tierAplus (mkGradeInput h₁ d₁ s₁) := by
    simp only [tierAplus, mkGradeInput, vlt_some_some]
    exact fun ⟨a, b, c⟩ => ⟨by linarith, by linarith, by linarith⟩
  have tr2 : tierA (mkGradeInput h d s) → tierA (mkGradeInput h₁ d₁ s₁) := by
    simp only [tierA, mkGradeInput, vlt_some_some]
    exact fun ⟨a, b, c⟩ => ⟨by linarith, by linarith, by linarith⟩
  have tr3 : tierB (mkGradeInput h d s) → tierB (mkGradeInput h₁ d₁ s₁) := by
    simp only [tierB, mkGradeInput, vlt_some_some]
    exact fun ⟨a, b, c⟩ => ⟨by linarith, by linarith, by linarith⟩
  have tr4 : tierC (mkGradeInput h d s) → tierC (mkGradeInput h₁ d₁ s₁) := by
    simp only [tierC, mkGradeInput, vlt_some_some]
    exact fun ⟨a, b, c⟩ => ⟨by linarith, by linarith, by linarith⟩
  by_cases c1 : tierAplus (mkGradeInput h d s)
  · rw [calcGrade_rank_of_tierAplus _ c1, calcGrade_rank_of_tierAplus _ (tr1 c1)]
  · by_cases c2 : tierA (mkGradeInput h d s)
    · exact le_trans (calcGrade_rank_ub_A _ c1) (calcGrade_rank_of_tierA _ (tr2 c2))
    · by_cases c3 : tierB (mkGradeInput h d s)
      · exact le_trans (calcGrade_rank_ub_B _ c1 c2) (calcGrade_rank_of_tierB _ (tr3 c3))
      · by_cases c4 : tierC (mkGradeInput h d s)
        · exact le_trans (calcGrade_rank_ub_C _ c1 c2 c3)
            (calcGrade_rank_of_tierC _ (tr4 c4))
        · have h0 : gradeValue (calcGrade (mkGradeInput h d s)) = 0 := by
            unfold calcGrade
            rw [if_neg c1, if_neg c2, if_neg c3, if_neg c4]
            rfl
          rw [h0]
          exact Nat.zero_le _

/-- Witness for `grade_monotone` at concrete inputs. -/
theorem grade_monotone_witness :
    (0 : ℝ) ≤ 0.03 ∧ (0 : ℝ) ≤ 0 ∧ (40 : ℝ) ≤ 40 ∧
      gradeValue (calcGrade (mkGradeInput 0.03 0 40)) ≤
        gradeValue (calcGrade (mkGradeInput 0 0 40)) :=
  ⟨by norm_num, le_refl 0, le_refl 40,
    grade_monotone 0.03 0 40 0 0 40 (by norm_num) (le_refl 0) (le_refl 40)⟩

/-- A cell of an elementwise-mapped grid holds iff the predicate holds
of the cell's value. -/
theorem maskAt_map (g : List (List Val)) (f : Val → Prop) (i j : ℕ)
    (hi : i < g.length) (hj : j < (g.getD i []).length) :
    maskAt (g.map (List.map f)) i j ↔ f ((g.getD i []).getD j none) := by
  unfold maskAt
  have h1 : (g.map (List.map f)).getD i [] = List.map f (g.getD i []) := by
    rw [List.getD_eq_getElem _ _ (by simpa using hi), List.getElem_map,
      List.getD_eq_getElem _ _ hi]
  rw [h1, List.getD_eq_getElem _ _ (by simpa using hj), List.getElem_map,
    List.getD_eq_getElem _ _ hj]

/-- **C1.** A pixel of the grid is in the hot mask iff at least 2 of the
3 estimators flag it hot (sigma: `value > mean + hot_pixel_sigma*std`;
IQR: `value > q3 + hot_pixel_iqr_mult*iqr`; MAD:
`value > median + hot_pixel_mad_mult*mad`), and in the dead mask iff at
least 2 of 3 flag it below the corresponding dead thresholds. -/
theorem detect_consensus (img : List (List Val)) (stats : PixelStats)
    (cfg : AnalysisConfig) (i j : ℕ) (hi : i < img.length)
    (hj : j < (img.getD i []).length) :
    (maskAt (detect_defective_pixels img stats cfg).1 i j ↔
      twoOfThree
        (vlt (vadd stats.mean (vmul (some cfg.hot_pixel_sigma) stats.std))
          ((img.getD i []).getD j none))
        (vlt (vadd stats.q3 (vmul (some cfg.hot_pixel_iqr_mult) stats.iqr))
          ((img.getD i []).getD j none))
        (vlt (vadd stats.median (vmul (some cfg.hot_pixel_mad_mult) stats.mad))
          ((img.getD i []).getD j none))) ∧
    (maskAt (detect_defective_pixels img stats cfg).2 i j ↔
      twoOfThree
        (vlt ((img.getD i []).getD j none)
          (vsub stats.mean (vmul (some cfg.dead_pixel_sigma) stats.std)))
        (vlt ((img.getD i []).getD j none)
          (vsub stats.q1 (vmul (some cfg.dead_pixel_iqr_mult) stats.iqr)))
        (vlt ((img.getD i []).getD j none)
          (vsub stats.median (vmul (some cfg.dead_pixel_mad_mult) stats.mad)))) := by
  constructor
  · exact maskAt_map img (hotFlag cfg stats) i j hi hj
  · exact maskAt_map img (deadFlag cfg stats) i j hi hj

/-- Witness for `detect_consensus`: a bright pixel flagged by the
estimators lands in the hot mask. -/
theorem detect_consensus_witness :
    0 < ([[(some 1 : Val)]]).length ∧
      0 < (([[(some 1 : Val)]]).getD 0 []).length ∧
      maskAt (detect_defective_pixels [[some 1]] (mkGradeInput 0 0 0) defaultConfig).1 0 0 := by
  refine ⟨by norm_num, by norm_num, ?_⟩
  refine (detect_consensus [[some 1]] (mkGradeInput 0 0 0) defaultConfig 0 0
    (by norm_num) (by norm_num)).1.mpr ?_
  left
  constructor
  · norm_num [mkGradeInput, defaultConfig, vadd_some_some, vmul_some_some,
      vlt_some_some, List.getD]
  · norm_num [mkGradeInput, defaultConfig, vadd_some_some, vmul_some_some,
      vlt_some_some, List.getD]

/-- **C6.** Normalization succeeds on any non-empty grid of finite
non-negative samples: the inferred bit depth `d` lies in
`{8, 12, 14, 16}`, satisfies `max ≤ 2^d - 1` whenever the maximum does
not exceed `2^16 - 1` (else `d = 16`), is the smallest such depth, and
the result divides every sample by `2^d - 1`. -/
theorem normalize_image_spec (img : List (List Val)) (hne : gridFlat img ≠ [])
    (hpos : ∀ v ∈ gridFlat img, ∃ x : ℝ, v = some x ∧ 0 ≤ x)
    (M : ℝ) (hM : vmaxL (gridFlat img) = some M) :
    normalize_image img =
        Except.ok
          (img.map (List.map fun v =>
            vdiv v (some ((2 : ℝ) ^ inferBitDepth (vmaxL (gridFlat img)) - 1))),
            inferBitDepth (vmaxL (gridFlat img))) ∧
      inferBitDepth (vmaxL (gridFlat img)) ∈ ([8, 12, 14, 16] : List ℕ) ∧
      (M ≤ (2 : ℝ) ^ 16 - 1 →
        M ≤ (2 : ℝ) ^ inferBitDepth (vmaxL (gridFlat img)) - 1) ∧
      ((2 : ℝ) ^ 16 - 1 < M → inferBitDepth (vmaxL (gridFlat img)) = 16) ∧
      (∀ d ∈ ([8, 12, 14, 16] : List ℕ), M ≤ (2 : ℝ) ^ d - 1 →
        inferBitDepth (vmaxL (gridFlat img)) ≤ d) := by
  refine ⟨?_, ?_, ?_, ?_, ?_⟩
  · unfold normalize_image
    rw [if_neg hne]
  · unfold inferBitDepth
    split_ifs <;> simp
  · intro h16
    rw [hM]
    unfold inferBitDepth
    split_ifs with h1 h2 h3
    · simp only [vle_some_some] at h1
      norm_num
      linarith
    · simp only [vle_some_some] at h2
      norm_num
      linarith
    · simp only [vle_some_some] at h3
      norm_num
      linarith
    · norm_num
      linarith
  · intro hgt
    rw [hM]
    unfold inferBitDepth
    norm_num at hgt
    split_ifs with h1 h2 h3
    · simp only [vle_some_some] at h1
      linarith
    · simp only [vle_some_some] at h2
      linarith
    · simp only [vle_some_some] at h3
      linarith
    · rfl
  · intro d hd hle
    rw [hM]
    unfold inferBitDepth
    simp only [List.mem_cons, List.not_mem_nil, or_false] at hd
    split_ifs with h1 h2 h3
    · rcases hd with rfl | rfl | rfl | rfl <;> norm_num
    · simp only [vle_some_some, not_le] at h1
      rcases hd with rfl | rfl | rfl | rfl <;> norm_num at hle ⊢ <;> linarith
    · simp only [vle_some_some, not_le] at h1 h2
      rcases hd with rfl | rfl | rfl | rfl <;> norm_num at hle ⊢ <;> linarith
    · simp only [vle_some_some, not_le] at h1 h2 h3
      rcases hd with rfl | rfl | rfl | rfl <;> norm_num at hle ⊢ <;> linarith

/-- Witness for `normalize_image_spec`: the all-zero image gets bit
depth 8 and an all-zero normalized image. -/
theorem normalize_image_spec_witness :
    gridFlat [[(some 0 : Val)]] ≠ [] ∧
      vmaxL (gridFlat [[(some 0 : Val)]]) = some 0 ∧
      normalize_image [[(some 0 : Val)]] = Except.ok ([[some 0]], 8) := by
  have h1 : gridFlat [[(some 0 : Val)]] ≠ [] := by simp
  have h2 : vmaxL (gridFlat [[(some 0 : Val)]]) = some 0 := by
    simp [vmaxL, realsOf, rmax]
  have hpos : ∀ v ∈ gridFlat [[(some 0 : Val)]], ∃ x : ℝ, v = some x ∧ 0 ≤ x := by
    intro v hv
    simp at hv
    exact ⟨0, hv, le_refl 0⟩
  have h3 := (normalize_image_spec [[(some 0 : Val)]] h1 hpos 0 h2).1
  have hD : inferBitDepth (vmaxL (gridFlat [[(some 0 : Val)]])) = 8 := by
    rw [h2]
    unfold inferBitDepth
    rw [if_pos]
    simp only [vle_some_some]
    norm_num
  rw [hD] at h3
  refine ⟨h1, h2, ?_⟩
  rw [h3]
  have hv : vdiv (some (0 : ℝ)) (some ((2 : ℝ) ^ 8 - 1)) = some 0 := by
    rw [vdiv_some_some_of_ne _ _ (by norm_num)]
    norm_num
  simp [hv]

@[simp] theorem realsOf_nil : realsOf [] = [] := rfl

@[simp] theorem realsOf_cons_some (x : ℝ) (l : List Val) :
    realsOf (some x :: l) = x :: realsOf l := rfl

/-- Mean of the two-sample boundary image. -/
theorem darkExample_mean : vmean [some (0.11 : ℝ), some 0.09] = some 0.1 := by
  rw [vmean, if_neg (by simp)]
  norm_num

/-- Standard deviation of the two-sample boundary image. -/
theorem darkExample_std : vstd [some (0.11 : ℝ), some 0.09] = some 0.01 := by
  unfold vstd
  rw [darkExample_mean]
  simp only [List.map_cons, List.map_nil, vsub_some_some, vmul_some_some]
  have e1 : ((0.11 : ℝ) - 0.1) * (0.11 - 0.1) = 0.0001 := by norm_num
  have e2 : ((0.09 : ℝ) - 0.1) * (0.09 - 0.1) = 0.0001 := by norm_num
  rw [e1, e2, vmean, if_neg (by simp)]
  have e3 : (realsOf [some (0.0001 : ℝ), some 0.0001]).sum /
      (([some (0.0001 : ℝ), some 0.0001] : List Val).length : ℝ) = 0.0001 := by
    norm_num
  rw [e3, vsqrt_some_of_nonneg _ (by norm_num)]
  have e4 : (0.0001 : ℝ) = 0.01 ^ 2 := by norm_num
  rw [e4, Real.sqrt_sq (by norm_num)]

/-- Full evaluation of `_validate_dark_frame` on the boundary image:
mean exactly `0.1`, std `0.01`, `snr_db = 20`; no issue is logged. -/
theorem darkExample_report :
    validate_dark_frame defaultConfig [[some (0.11 : ℝ), some 0.09]] =
      { mean := some 0.1, std := some 0.01, snr_db := some 20, issues := [] } := by
  unfold validate_dark_frame
  have hg : gridFlat [[some (0.11 : ℝ), some 0.09]] = [some 0.11, some 0.09] := by simp
  rw [hg]
  dsimp only
  rw [darkExample_mean, darkExample_std]
  have hdiv : vdiv (some (0.1 : ℝ)) (some 0.01) = some 10 := by
    rw [vdiv_some_some_of_ne _ _ (by norm_num)]
    norm_num
  have hlog : vlog10 (some (10 : ℝ)) = some 1 := by
    rw [vlog10_some_of_pos _ (by norm_num), Real.logb_self_eq_one (by norm_num)]
  rw [if_pos ⟨by norm_num [vlt_some_some], by norm_num [vlt_some_some]⟩, hdiv, hlog]
  have hsnr : vmul (some (20 : ℝ)) (some 1) = some 20 := by
    rw [vmul_some_some]
    norm_num
  rw [hsnr, if_neg (by norm_num [defaultConfig, vlt_some_some]),
    if_neg (by norm_num [defaultConfig, vlt_some_some])]
  rfl

/-- **C2 (counterexample).** On the boundary image with `mean = 0.1`
and `snr_db = 20` the code logs no issue (verdict: valid dark frame),
while the claimed verdict `mean < 0.1 ∧ snr_db > 10 ∧ std < 0.05` is
false — the claimed iff fails. -/
theorem dark_verdict_counterexample :
    (validate_dark_frame defaultConfig [[some (0.11 : ℝ), some 0.09]]).issues = [] ∧
      ¬ specValidDark (validate_dark_frame defaultConfig [[some (0.11 : ℝ), some 0.09]]) := by
  rw [darkExample_report]
  refine ⟨rfl, fun hc => ?_⟩
  have hm := hc.1
  rw [vlt_some_some] at hm
  norm_num at hm

/-- **C2 (amended).** For finite measured mean and SNR, the dark-frame
verdict (no issue logged) holds iff `mean ≤ max_dark_mean` and
`snr_db ≥ min_snr_db`: boundary values count as valid, no separate
`std < 0.05` condition is checked, and the outcome is only logged — the
check never raises or aborts. -/
theorem dark_frame_verdict (cfg : AnalysisConfig) (imageNorm : List (List Val))
    (m s : ℝ) (hm : (validate_dark_frame cfg imageNorm).mean = some m)
    (hs : (validate_dark_frame cfg imageNorm).snr_db = some s) :
    ((validate_dark_frame cfg imageNorm).issues = [] ↔
      (m ≤ cfg.max_dark_mean ∧ cfg.min_snr_db ≤ s)) := by
  simp only [validate_dark_frame] at hm hs ⊢
  rw [hm] at hs ⊢
  rw [hs]
  simp only [vlt_some_some]
  rcases lt_or_le cfg.max_dark_mean m with hA | hA <;>
    rcases lt_or_le s cfg.min_snr_db with hB | hB
  · rw [if_pos hA, if_pos hB]
    simp [hA.not_le]
  · rw [if_pos hA, if_neg (not_lt.mpr hB)]
    simp [hA.not_le]
  · rw [if_neg (not_lt.mpr hA), if_pos hB]
    simp [hB.not_le]
  · rw [if_neg (not_lt.mpr hA), if_neg (not_lt.mpr hB)]
    simp [hA, hB]

/-- Witness for `dark_frame_verdict` on the boundary image. -/
theorem dark_frame_verdict_witness :
    (validate_dark_frame defaultConfig [[some (0.11 : ℝ), some 0.09]]).mean = some 0.1 ∧
      (validate_dark_frame defaultConfig [[some (0.11 : ℝ), some 0.09]]).snr_db = some 20 ∧
      ((validate_dark_frame defaultConfig [[some (0.11 : ℝ), some 0.09]]).issues = [] ↔
        ((0.1 : ℝ) ≤ defaultConfig.max_dark_mean ∧ defaultConfig.min_snr_db ≤ (20 : ℝ))) := by
  have hm : (validate_dark_frame defaultConfig [[some (0.11 : ℝ), some 0.09]]).mean
      = some 0.1 := by rw [darkExample_report]
  have hs : (validate_dark_frame defaultConfig [[some (0.11 : ℝ), some 0.09]]).snr_db
      = some 20 := by rw [darkExample_report]
  exact ⟨hm, hs, dark_frame_verdict defaultConfig _ 0.1 20 hm hs⟩

@[simp] theorem compute_basic_stats_mean (flat : List Val) :
    (compute_basic_stats flat).mean = vmean flat := rfl

@[simp] theorem compute_basic_stats_std (flat : List Val) :
    (compute_basic_stats flat).std = vstd flat := rfl

@[simp] theorem compute_basic_stats_median (flat : List Val) :
    (compute_basic_stats flat).median = vmedian flat := rfl

@[simp] theorem compute_basic_stats_q1 (flat : List Val) :
    (compute_basic_stats flat).q1 = vpercentile 25 flat := rfl

@[simp] theorem compute_basic_stats_q3 (flat : List Val) :
    (compute_basic_stats flat).q3 = vpercentile 75 flat := rfl

@[simp] theorem compute_basic_stats_iqr (flat : List Val) :
    (compute_basic_stats flat).iqr =
      vsub (vpercentile 75 flat) (vpercentile 25 flat) := rfl

@[simp] theorem compute_basic_stats_mad (flat : List Val) :
    (compute_basic_stats flat).mad =
      vmedian (flat.map fun x => vabs (vsub x (vmedian flat))) := rfl

/-- A non-empty NaN-free sample list has a finite entry. -/
theorem realsOf_ne_nil {l : List Val} (hne : l ≠ []) (hnn : none ∉ l) :
    realsOf l ≠ [] := by
  cases l with
  | nil => exact absurd rfl hne
  | cons a t =>
    cases a with
    | none => exact absurd (List.mem_cons_self _ _) hnn
    | some x => simp

/-- The sorted sample list is sorted. -/
theorem sortedReals_sorted (l : List Val) :
    List.Sorted (· ≤ ·) (sortedReals l) :=
  List.sorted_insertionSort _ _

/-- Sorting preserves the number of finite samples. -/
theorem sortedReals_length (l : List Val) :
    (sortedReals l).length = (realsOf l).length :=
  List.length_insertionSort _ _

/-- Membership in the sorted sample list. -/
theorem mem_sortedReals {l : List Val} {x : ℝ} :
    x ∈ sortedReals l ↔ x ∈ realsOf l :=
  List.mem_insertionSort _

/-- Monotone access into a sorted list (`getD` with default `0`). -/
theorem getD_sorted_mono {s : List ℝ} (hs : List.Sorted (· ≤ ·) s) {i j : ℕ}
    (hij : i ≤ j) (hj : j < s.length) : s.getD i 0 ≤ s.getD j 0 := by
  have hi : i < s.length := lt_of_le_of_lt hij hj
  rw [List.getD_eq_getElem _ _ hi, List.getD_eq_getElem _ _ hj]
  rcases eq_or_lt_of_le hij with rfl | hlt
  · exact le_refl _
  · exact List.pairwise_iff_getElem.mp hs i j hi hj hlt

/-- Access into a list of non-negative entries is non-negative. -/
theorem getD_nonneg {s : List ℝ} (h : ∀ r ∈ s, 0 ≤ r) (i : ℕ) :
    0 ≤ s.getD i 0 := by
  by_cases hi : i < s.length
  · rw [List.getD_eq_getElem _ _ hi]
    exact h _ (List.getElem_mem hi)
  · rw [List.getD_eq_default _ _ (not_lt.mp hi)]

/-- The virtual index is non-negative. -/
theorem percPos_nonneg {q : ℚ} (hq : 0 ≤ q) (n : ℕ) : 0 ≤ percPos q n := by
  unfold percPos
  exact div_nonneg (mul_nonneg (Nat.cast_nonneg _) hq) (by norm_num)

/-- The virtual index is monotone in the percentile. -/
theorem percPos_mono {p q : ℚ} (hpq : p ≤ q) (n : ℕ) : percPos p n ≤ percPos q n := by
  unfold percPos
  have h := mul_le_mul_of_nonneg_left hpq (Nat.cast_nonneg (α := ℚ) (n - 1))
  linarith

/-- The virtual index of a percentile `≤ 100` stays below `n - 1`. -/
theorem percPos_le {q : ℚ} (hq : q ≤ 100) (n : ℕ) :
    percPos q n ≤ ((n - 1 : ℕ) : ℚ) := by
  unfold percPos
  rw [div_le_iff (by norm_num : (0 : ℚ) < 100)]
  exact mul_le_mul_of_nonneg_left hq (Nat.cast_nonneg _)

/-- The interpolated percentile lies between its two neighbouring
sorted entries. -/
theorem percInterp_mem {s : List ℝ} (hs : List.Sorted (· ≤ ·) s) {q : ℚ}
    (hq0 : 0 ≤ q) (hq100 : q ≤ 100) (hn : s ≠ []) :
    s.getD ⌊percPos q s.length⌋₊ 0 ≤ percInterp q s ∧
      percInterp q s ≤ s.getD ⌈percPos q s.length⌉₊ 0 := by
  have hlen : 1 ≤ s.length := List.length_pos.mpr hn
  have hpos0 : 0 ≤ percPos q s.length := percPos_nonneg hq0 _
  have hposle : percPos q s.length ≤ ((s.length - 1 : ℕ) : ℚ) := percPos_le hq100 _
  have hceil : ⌈percPos q s.length⌉₊ < s.length :=
    lt_of_le_of_lt (Nat.ceil_le.mpr hposle) (Nat.sub_lt hlen one_pos)
  have hsij : s.getD ⌊percPos q s.length⌋₊ 0 ≤ s.getD ⌈percPos q s.length⌉₊ 0 :=
    getD_sorted_mono hs (Nat.floor_le_ceil _) hceil
  have hg0 : (0 : ℝ) ≤ ((percPos q s.length : ℚ) : ℝ) - (⌊percPos q s.length⌋₊ : ℝ) := by
    have h := Nat.floor_le hpos0
    have h2 : ((⌊percPos q s.length⌋₊ : ℚ) : ℝ) ≤ ((percPos q s.length : ℚ) : ℝ) := by
      exact_mod_cast h
    push_cast at h2 ⊢
    linarith
  have hg1 : ((percPos q s.length : ℚ) : ℝ) - (⌊percPos q s.length⌋₊ : ℝ) ≤ 1 := by
    have h := (Nat.lt_floor_add_one (percPos q s.length)).le
    have h2 : ((percPos q s.length : ℚ) : ℝ) ≤ ((⌊percPos q s.length⌋₊ : ℚ) : ℝ) + 1 := by
      exact_mod_cast h
    push_cast at h2 ⊢
    linarith
  unfold percInterp
  constructor
  · have h := mul_nonneg hg0 (sub_nonneg.mpr hsij)
    linarith
  · have h := mul_nonneg (sub_nonneg.mpr hg1) (sub_nonneg.mpr hsij)
    nlinarith

/-- `np.percentile` is monotone in the percentile whenever both values
are finite. -/
theorem vpercentile_mono {l : List Val} {p q : ℚ} (hp0 : 0 ≤ p) (hpq : p ≤ q)
    (hq100 : q ≤ 100) {a b : ℝ} (ha : vpercentile p l = some a)
    (hb : vpercentile q l = some b) : a ≤ b := by
  unfold vpercentile at ha hb
  by_cases hg : l = [] ∨ none ∈ l
  · rw [if_pos hg] at ha
    exact absurd ha (by simp)
  rw [if_neg hg] at ha hb
  push_neg at hg
  injection ha with ha'
  injection hb with hb'
  rw [← ha', ← hb']
  set s := sortedReals l with hsdef
  have hsne : s ≠ [] := by
    intro hc
    apply realsOf_ne_nil hg.1 hg.2
    have hlen := sortedReals_length l
    rw [← hsdef, hc] at hlen
    exact List.length_eq_zero.mp hlen.symm
  have hq0 : 0 ≤ q := le_trans hp0 hpq
  have hp100 : p ≤ 100 := le_trans hpq hq100
  have hs : List.Sorted (· ≤ ·) s := sortedReals_sorted l
  have hlen : 1 ≤ s.length := List.length_pos.mpr hsne
  have hposmono : percPos p s.length ≤ percPos q s.length := percPos_mono hpq _
  have hflo : ⌊percPos p s.length⌋₊ ≤ ⌊percPos q s.length⌋₊ := Nat.floor_mono hposmono
  have hqceil : ⌈percPos q s.length⌉₊ < s.length :=
    lt_of_le_of_lt (Nat.ceil_le.mpr (percPos_le hq100 _)) (Nat.sub_lt hlen one_pos)
  have hqflo : ⌊percPos q s.length⌋₊ < s.length :=
    lt_of_le_of_lt (Nat.floor_le_ceil _) hqceil
  rcases lt_or_eq_of_le hflo with hlt | heq
  · have h1 : percInterp p s ≤ s.getD ⌈percPos p s.length⌉₊ 0 :=
      (percInterp_mem hs hp0 hp100 hsne).2
    have h2 : s.getD ⌈percPos p s.length⌉₊ 0 ≤ s.getD ⌊percPos q s.length⌋₊ 0 := by
      apply getD_sorted_mono hs _ hqflo
      calc ⌈percPos p s.length⌉₊
          ≤ ⌊percPos p s.length⌋₊ + 1 := Nat.ceil_le_floor_add_one _
        _ ≤ ⌊percPos q s.length⌋₊ := hlt
    have h3 : s.getD ⌊percPos q s.length⌋₊ 0 ≤ percInterp q s :=
      (percInterp_mem hs hq0 hq100 hsne).1
    linarith
  · by_cases hz : percPos p s.length = (⌊percPos p s.length⌋₊ : ℚ)
    · have hgz : ((percPos p s.length : ℚ) : ℝ) - (⌊percPos p s.length⌋₊ : ℝ) = 0 := by
        rw [hz, Nat.floor_natCast]
        push_cast
        ring
      unfold percInterp
      rw [hgz, zero_mul, add_zero, heq]
      exact (percInterp_mem hs hq0 hq100 hsne).1
    · have hplt : (⌊percPos p s.length⌋₊ : ℚ) < percPos p s.length :=
        lt_of_le_of_ne (Nat.floor_le (percPos_nonneg hp0 _)) (Ne.symm hz)
      have hpc : ⌈percPos p s.length⌉₊ = ⌊percPos p s.length⌋₊ + 1 :=
        le_antisymm (Nat.ceil_le_floor_add_one _) (Nat.succ_le_of_lt (Nat.lt_ceil.mpr hplt))
      have hqlt : (⌊percPos q s.length⌋₊ : ℚ) < percPos q s.length := by
        rw [← heq]
        exact lt_of_lt_of_le hplt hposmono
      have hqc : ⌈percPos q s.length⌉₊ = ⌊percPos q s.length⌋₊ + 1 :=
        le_antisymm (Nat.ceil_le_floor_add_one _) (Nat.succ_le_of_lt (Nat.lt_ceil.mpr hqlt))
      have hsucclt : ⌊percPos q s.length⌋₊ + 1 < s.length := by
        rw [← hqc]
        exact hqceil
      have hdle : s.getD ⌊percPos q s.length⌋₊ 0 ≤ s.getD (⌊percPos q s.length⌋₊ + 1) 0 :=
        getD_sorted_mono hs (Nat.le_succ _) hsucclt
      have hgle : ((percPos p s.length : ℚ) : ℝ) - (⌊percPos q s.length⌋₊ : ℝ) ≤
          ((percPos q s.length : ℚ) : ℝ) - (⌊percPos q s.length⌋₊ : ℝ) := by
        have h2 : ((percPos p s.length : ℚ) : ℝ) ≤ ((percPos q s.length : ℚ) : ℝ) := by
          exact_mod_cast hposmono
        linarith
      unfold percInterp
      rw [hpc, heq, hqc]
      exact add_le_add_left (mul_le_mul_of_nonneg_right hgle (sub_nonneg.mpr hdle)) _

/-- A finite `np.median` of non-negative samples is non-negative. -/
theorem vmedian_nonneg {l : List Val} (hl : ∀ r ∈ realsOf l, 0 ≤ r) {m : ℝ}
    (hm : vmedian l = some m) : 0 ≤ m := by
  unfold vmedian at hm
  by_cases hg : l = [] ∨ none ∈ l
  · rw [if_pos hg] at hm
    exact absurd hm (by simp)
  · rw [if_neg hg] at hm
    injection hm with hm'
    have hnn : ∀ r ∈ sortedReals l, 0 ≤ r := fun r hr => hl r (mem_sortedReals.mp hr)
    rw [← hm']
    split_ifs
    · exact getD_nonneg hnn _
    · have h1 := getD_nonneg hnn ((sortedReals l).length / 2 - 1)
      have h2 := getD_nonneg hnn ((sortedReals l).length / 2)
      linarith

/-- Every finite entry of the absolute-deviation list is non-negative. -/
theorem absList_nonneg (l : List Val) (c : Val) :
    ∀ r ∈ realsOf (l.map fun x => vabs (vsub x c)), 0 ≤ r := by
  intro r hr
  rw [realsOf, List.reduceOption_mem_iff] at hr
  obtain ⟨x, _, hfx⟩ := List.mem_map.mp hr
  cases hsub : vsub x c with
  | none =>
    rw [hsub] at hfx
    exact absurd hfx (by simp [vabs])
  | some z =>
    rw [hsub] at hfx
    injection hfx with h
    rw [← h]
    exact abs_nonneg z

/-- Two 2-of-3 consensus votes over the same three slots share a slot. -/
theorem twoOfThree_overlap {A B C D E F : Prop} (h : twoOfThree A B C)
    (h' : twoOfThree D E F) : (A ∧ D) ∨ (B ∧ E) ∨ (C ∧ F) := by
  unfold twoOfThree at h h'
  tauto

/-- A hot test `value > base_h + k*w` and a dead test
`value < base_d - k'*w` cannot both fire when the multipliers are
non-negative and, at finite values, `w ≥ 0` and `base_d ≤ base_h`. -/
theorem hot_dead_incompatible {chot cdead w v : Val} {k kd : ℝ}
    (hk : 0 ≤ k) (hkd : 0 ≤ kd)
    (hbase : ∀ xh xd y : ℝ, chot = some xh → cdead = some xd → w = some y →
      0 ≤ y ∧ xd ≤ xh)
    (hH : vlt (vadd chot (vmul (some k) w)) v)
    (hD : vlt v (vsub cdead (vmul (some kd) w))) : False := by
  obtain ⟨t, x, ht, hx, htx⟩ := vlt_finite hH
  obtain ⟨x2, u, hx2, hu, hxu⟩ := vlt_finite hD
  obtain ⟨xh, pr, hch, hpr, hts⟩ := vadd_eq_some ht
  obtain ⟨k0, y, hk0, hw, hprs⟩ := vmul_eq_some hpr
  obtain ⟨xd, pr2, hcd, hpr2, hus⟩ := vsub_eq_some hu
  obtain ⟨k0d, y2, hk0d, hw2, hprs2⟩ := vmul_eq_some hpr2
  have hk0e : k = k0 := Option.some.inj hk0
  have hk0de : kd = k0d := Option.some.inj hk0d
  have hye : y = y2 := by
    rw [hw] at hw2
    exact Option.some.inj hw2
  have hxe : x = x2 := by
    rw [hx] at hx2
    exact Option.some.inj hx2
  obtain ⟨hy0, hdh⟩ := hbase xh xd y hch hcd hw
  have hky : 0 ≤ k * y := mul_nonneg hk hy0
  have hkdy : 0 ≤ kd * y := mul_nonneg hkd hy0
  rw [← hk0e] at hprs
  rw [← hk0de, ← hye] at hprs2
  rw [← hxe] at hxu
  linarith [hts, hus, htx, hxu]

/-- A mask cell built by elementwise mapping implies the predicate at
the cell's value (also covering out-of-range indices, where the mask is
false). -/
theorem maskAt_map_imp {g : List (List Val)} {f : Val → Prop} {i j : ℕ}
    (h : maskAt (g.map (List.map f)) i j) : f ((g.getD i []).getD j none) := by
  by_cases hi : i < g.length
  · by_cases hj : j < (g.getD i []).length
    · exact (maskAt_map g f i j hi hj).mp h
    · exfalso
      unfold maskAt at h
      have h1 : (g.map (List.map f)).getD i [] = List.map f (g.getD i []) := by
        rw [List.getD_eq_getElem _ _ (by simpa using hi), List.getElem_map,
          List.getD_eq_getElem _ _ hi]
      rw [h1, List.getD_eq_default] at h
      · exact h
      · simpa using not_lt.mp hj
  · exfalso
    unfold maskAt at h
    have h1 : (g.map (List.map f)).getD i [] = [] :=
      List.getD_eq_default _ _ (by simpa using not_lt.mp hi)
    rw [h1] at h
    simp at h

/-- **C9.** With non-negative multipliers, the hot and dead masks that
defect detection produces from the statistics of the flattened image
are disjoint: no pixel is flagged both hot and dead. -/
theorem masks_disjoint (imageNorm : List (List Val)) (cfg : AnalysisConfig)
    (h1 : 0 ≤ cfg.hot_pixel_sigma) (h2 : 0 ≤ cfg.dead_pixel_sigma)
    (h3 : 0 ≤ cfg.hot_pixel_iqr_mult) (h4 : 0 ≤ cfg.dead_pixel_iqr_mult)
    (h5 : 0 ≤ cfg.hot_pixel_mad_mult) (h6 : 0 ≤ cfg.dead_pixel_mad_mult)
    (i j : ℕ) :
    ¬ (maskAt (detect_defective_pixels imageNorm
          (compute_basic_stats (gridFlat imageNorm)) cfg).1 i j ∧
        maskAt (detect_defective_pixels imageNorm
          (compute_basic_stats (gridFlat imageNorm)) cfg).2 i j) := by
  rintro ⟨hH, hD⟩
  have hH' : hotFlag cfg (compute_basic_stats (gridFlat imageNorm))
      ((imageNorm.getD i []).getD j none) := maskAt_map_imp hH
  have hD' : deadFlag cfg (compute_basic_stats (gridFlat imageNorm))
      ((imageNorm.getD i []).getD j none) := maskAt_map_imp hD
  rcases twoOfThree_overlap hH' hD' with ⟨hs1, hs2⟩ | ⟨hq1, hq2⟩ | ⟨hm1, hm2⟩
  · refine hot_dead_incompatible h1 h2 ?_ hs1 hs2
    intro xh xd y hch hcd hw
    rw [compute_basic_stats_mean] at hch hcd
    rw [compute_basic_stats_std] at hw
    refine ⟨vsqrt_eq_some_nonneg hw, ?_⟩
    rw [hch] at hcd
    exact le_of_eq (Option.some.inj hcd).symm
  · refine hot_dead_incompatible h3 h4 ?_ hq1 hq2
    intro xh xd y hch hcd hw
    rw [compute_basic_stats_q3] at hch
    rw [compute_basic_stats_q1] at hcd
    rw [compute_basic_stats_iqr] at hw
    obtain ⟨c3, c1, e3, e1, hy⟩ := vsub_eq_some hw
    rw [hch] at e3
    rw [hcd] at e1
    have hc3 : c3 = xh := (Option.some.inj e3).symm
    have hc1 : c1 = xd := (Option.some.inj e1).symm
    have hmono : xd ≤ xh :=
      vpercentile_mono (by norm_num) (by norm_num) (by norm_num) hcd hch
    constructor
    · rw [hy, hc3, hc1]
      linarith
    · exact hmono
  · refine hot_dead_incompatible h5 h6 ?_ hm1 hm2
    intro xh xd y hch hcd hw
    rw [compute_basic_stats_median] at hch hcd
    rw [compute_basic_stats_mad] at hw
    refine ⟨vmedian_nonneg (absList_nonneg _ _) hw, ?_⟩
    rw [hch] at hcd
    exact le_of_eq (Option.some.inj hcd).symm

/-- Witness for `masks_disjoint` at the default configuration on a
concrete image. -/
theorem masks_disjoint_witness :
    (0 : ℝ) ≤ 6 ∧ (0 : ℝ) ≤ 3.5 ∧ (0 : ℝ) ≤ 4 ∧
      ¬ (maskAt (detect_defective_pixels [[some 0, some 1]]
            (compute_basic_stats (gridFlat [[some 0, some 1]])) defaultConfig).1 0 0 ∧
          maskAt (detect_defective_pixels [[some 0, some 1]]
            (compute_basic_stats (gridFlat [[some 0, some 1]])) defaultConfig).2 0 0) :=
  ⟨by norm_num, by norm_num, by norm_num,
    masks_disjoint [[some 0, some 1]] defaultConfig (by norm_num [defaultConfig])
      (by norm_num [defaultConfig]) (by norm_num [defaultConfig])
      (by norm_num [defaultConfig]) (by norm_num [defaultConfig])
      (by norm_num [defaultConfig]) 0 0⟩

end
